import Mathlib

/-!
Shallow embedding of the entity-normalization utilities of the repository
(`src/utils/normalize.ts`, `src/hooks/useNormalizedState.ts`).

JavaScript values that can appear as record fields are modelled by `JVal`
(null, numbers, strings, nested objects); a missing property reads as
`Option.none` (JS `undefined`).  A record and an entity map are association
lists with JS object-property semantics: setting an existing key replaces the
value in place, setting a fresh key appends, and property keys are strings
(numeric keys are coerced with `String(...)`).  Key iteration order is
modelled as insertion order; only set-level facts are claimed about it.
-/

namespace RNF

/-- A JavaScript field value: `null`, a number, a string, or a nested object
(a list of named fields, in insertion order). -/
inductive JVal where
  | null : JVal
  | num (n : Int) : JVal
  | str (s : String) : JVal
  | obj (fields : List (String × JVal)) : JVal
  deriving Repr

mutual

/-- Decidable equality for `JVal` (the nested-inductive instance cannot be
derived automatically). -/
def JVal.deq : (a b : JVal) → Decidable (a = b)
  | .null, .null => isTrue rfl
  | .null, .num _ => isFalse fun h => nomatch h
  | .null, .str _ => isFalse fun h => nomatch h
  | .null, .obj _ => isFalse fun h => nomatch h
  | .num _, .null => isFalse fun h => nomatch h
  | .num a, .num b =>
      match decEq a b with
      | isTrue h => isTrue (by rw [h])
      | isFalse h => isFalse fun hh => h (by cases hh; rfl)
  | .num _, .str _ => isFalse fun h => nomatch h
  | .num _, .obj _ => isFalse fun h => nomatch h
  | .str _, .null => isFalse fun h => nomatch h
  | .str _, .num _ => isFalse fun h => nomatch h
  | .str a, .str b =>
      match decEq a b with
      | isTrue h => isTrue (by rw [h])
      | isFalse h => isFalse fun hh => h (by cases hh; rfl)
  | .str _, .obj _ => isFalse fun h => nomatch h
  | .obj _, .null => isFalse fun h => nomatch h
  | .obj _, .num _ => isFalse fun h => nomatch h
  | .obj _, .str _ => isFalse fun h => nomatch h
  | .obj a, .obj b =>
      match JVal.deqFields a b with
      | isTrue h => isTrue (by rw [h])
      | isFalse h => isFalse fun hh => h (by cases hh; rfl)

/-- Decidable equality for field lists of `JVal` objects. -/
def JVal.deqFields : (a b : List (String × JVal)) → Decidable (a = b)
  | [], [] => isTrue rfl
  | [], _ :: _ => isFalse fun h => nomatch h
  | _ :: _, [] => isFalse fun h => nomatch h
  | (k₁, v₁) :: r₁, (k₂, v₂) :: r₂ =>
      match decEq k₁ k₂ with
      | isFalse h => isFalse fun hh => h (by cases hh; rfl)
      | isTrue hk =>
        match JVal.deq v₁ v₂ with
        | isFalse h => isFalse fun hh => h (by cases hh; rfl)
        | isTrue hv =>
          match JVal.deqFields r₁ r₂ with
          | isFalse h => isFalse fun hh => h (by cases hh; rfl)
          | isTrue hr => isTrue (by rw [hk, hv, hr])

end

instance : DecidableEq JVal := JVal.deq

/-- A record: an open mapping from field name to value (`Record<string, any>`). -/
abbrev Rec := List (String × JVal)

/-- An entity map: a JS object keyed by stringified identifiers
(`Record<string | number, T>`). -/
abbrev EntityMap := List (String × Rec)

/-- JS property read `o[k]`: first binding of `k`, `none` for `undefined`. -/
def mapGet {α : Type} : List (String × α) → String → Option α
  | [], _ => none
  | (k', v') :: rest, k => if k' = k then some v' else mapGet rest k

/-- JS property write `o[k] = v` (also the semantics of spreading and
overriding one key): replace in place when the key exists, append otherwise. -/
def mapSet {α : Type} : List (String × α) → String → α → List (String × α)
  | [], k, v => [(k, v)]
  | (k', v') :: rest, k, v =>
      if k' = k then (k, v) :: rest else (k', v') :: mapSet rest k v

/-- JS `delete o[k]`. -/
def mapDelete {α : Type} (m : List (String × α)) (k : String) : List (String × α) :=
  m.filter (fun p => p.1 ≠ k)

/-- Field read on a record, `item[key]`. -/
def recGet (r : Rec) (key : String) : Option JVal := mapGet r key

/-- JS `String(v)` for a defined value. -/
def jvalToString : JVal → String
  | JVal.null => "null"
  | JVal.num n => toString n
  | JVal.str s => s
  | JVal.obj _ => "[object Object]"

/-- JS string coercion of a possibly-`undefined` value, as happens when a
value is used as a property key. -/
def stringifyOpt : Option JVal → String
  | none => "undefined"
  | some v => jvalToString v

/-! ## normalize / denormalize (`src/utils/normalize.ts`) -/

/-- One step of the `reduce` callback of `normalize`: skip the item (after the
`console.warn` diagnostic) when `item[key]` is `undefined` or `null`,
otherwise `{ ...acc, [keyValue]: item }`. -/
def normStep (key : String) (acc : EntityMap) (item : Rec) : EntityMap :=
  match recGet item key with
  | none => acc
  | some JVal.null => acc
  | some v => mapSet acc (jvalToString v) item

/-- `normalize(arr, key = "id")` (the source default key is `id`): fold the collection into an entity map. -/
def normalize (arr : List Rec) (key : String := "id") : EntityMap :=
  arr.foldl (normStep key) []

/-- The records for which `normalize` emits its `console.warn` diagnostic:
exactly those whose `item[key]` is `undefined` or `null` (the `if` branch of
the reduce callback). -/
def normalizeWarned (arr : List Rec) (key : String := "id") : List Rec :=
  arr.filter (fun item =>
    match recGet item key with
    | none => true
    | some JVal.null => true
    | some _ => false)

/-- `denormalize(obj)`: `Object.values(obj)`. -/
def denormalize (obj : EntityMap) : List Rec :=
  obj.map Prod.snd

/-- The key under which `normalize` would file a record: `none` when the
record is skipped (identifier `undefined` or `null`), otherwise the
stringified identifier value. -/
def normKey (key : String) (r : Rec) : Option String :=
  match recGet r key with
  | none => none
  | some JVal.null => none
  | some v => some (jvalToString v)

/-! ## extractEntities (`src/utils/normalize.ts`) -/

/-- The copy of an outer record produced by one `extractEntities` loop
iteration: when `item[entityKey]` is a truthy object carrying `idKey`, the
nested field is deleted and `<entityKey>Id` is set to the nested identifier;
otherwise `{ ...item }` is passed through unchanged. -/
def itemCopyOf (entityKey idKey : String) (item : Rec) : Rec :=
  match recGet item entityKey with
  | some (JVal.obj e) =>
      match mapGet e idKey with
      | some entityId => mapSet (mapDelete item entityKey) (entityKey ++ "Id") entityId
      | none => item
  | _ => item

/-- The update one `extractEntities` loop iteration makes to the `entities`
map: `entities[entityId] = entity` when the nested field is a truthy object
carrying `idKey`, nothing otherwise. -/
def entitiesUpdate (entityKey idKey : String) (ents : EntityMap) (item : Rec) : EntityMap :=
  match recGet item entityKey with
  | some (JVal.obj e) =>
      match mapGet e idKey with
      | some entityId => mapSet ents (jvalToString entityId) e
      | none => ents
  | _ => ents

/-- One iteration of the `forEach` loop of `extractEntities` over the state
`(normalizedItems, entities)`, ending with
`normalizedItems[item[idKey]] = itemCopy`. -/
def extractStep (entityKey idKey : String) (st : EntityMap × EntityMap) (item : Rec) :
    EntityMap × EntityMap :=
  (mapSet st.1 (stringifyOpt (recGet item idKey)) (itemCopyOf entityKey idKey item),
   entitiesUpdate entityKey idKey st.2 item)

/-- `extractEntities(items, entityKey, idKey = "id")`: returns the pair
`(items, entities)`. -/
def extractEntities (items : List Rec) (entityKey : String) (idKey : String := "id") :
    EntityMap × EntityMap :=
  items.foldl (extractStep entityKey idKey) ([], [])

/-! ## Stateful wrapper (`src/hooks/useNormalizedState.ts`)

The hook state is one `EntityMap`; each callback is embedded as the state
transition it passes to `setState`.  Identifier arguments typed
`string | number` are coerced to property keys with `jvalToString`. -/

/-- `addEntity(entity)`: `{ ...prev, [entity.id]: entity }`. -/
def addEntity (prev : EntityMap) (entity : Rec) : EntityMap :=
  mapSet prev (stringifyOpt (recGet entity "id")) entity

/-- `removeEntity(id)`: copy and `delete newState[id]`. -/
def removeEntity (prev : EntityMap) (id : JVal) : EntityMap :=
  mapDelete prev (jvalToString id)

/-- `{ ...entity, ...updates }`: each update field overrides in place or is
appended. -/
def recMerge (entity updates : Rec) : Rec :=
  updates.foldl (fun acc p => mapSet acc p.1 p.2) entity

/-- `updateEntity(id, updates)`: no-op when `prev[id]` is falsy (absent),
otherwise `{ ...prev, [id]: { ...entity, ...updates } }`. -/
def updateEntity (prev : EntityMap) (id : JVal) (updates : Rec) : EntityMap :=
  match mapGet prev (jvalToString id) with
  | none => prev
  | some entity => mapSet prev (jvalToString id) (recMerge entity updates)

/-- `getEntity(id)`: `state[id]`. -/
def getEntity (state : EntityMap) (id : JVal) : Option Rec :=
  mapGet state (jvalToString id)

/-- `entityIds`: `Object.keys(state)`. -/
def entityIds (state : EntityMap) : List String :=
  state.map Prod.fst

/-- `hasEntity(id)`: `id in state`. -/
def hasEntity (state : EntityMap) (id : JVal) : Bool :=
  (mapGet state (jvalToString id)).isSome

/-- `count`: `entityIds.length`. -/
def count (state : EntityMap) : Nat :=
  (entityIds state).length

example : mapGet (mapSet ([] : EntityMap) "1" []) "1" = some [] := by decide

example :
    normalize [[("id", JVal.num 1), ("name", JVal.str "John")],
               [("id", JVal.num 2), ("name", JVal.str "Jane")]]
      = [("1", [("id", JVal.num 1), ("name", JVal.str "John")]),
         ("2", [("id", JVal.num 2), ("name", JVal.str "Jane")])] := by decide


/-! ## Lemmas about the JS object model -/

theorem mapGet_mapSet_self {α : Type} (m : List (String × α)) (k : String) (v : α) :
    mapGet (mapSet m k v) k = some v := by
  induction m with
  | nil => simp [mapSet, mapGet]
  | cons p rest ih =>
    obtain ⟨k', v'⟩ := p
    by_cases h : k' = k
    · simp [mapSet, mapGet, h]
    · simp [mapSet, mapGet, h, ih]

theorem mapGet_mapSet_ne {α : Type} (m : List (String × α)) (k k' : String) (v : α)
    (h : k' ≠ k) : mapGet (mapSet m k v) k' = mapGet m k' := by
  induction m with
  | nil => simp [mapSet, mapGet, Ne.symm h]
  | cons p rest ih =>
    obtain ⟨k₀, v₀⟩ := p
    by_cases h0 : k₀ = k
    · subst h0
      simp [mapSet, mapGet, Ne.symm h]
    · by_cases h1 : k₀ = k'
      · simp [mapSet, mapGet, h0, h1, h]
      · simp [mapSet, mapGet, h0, h1, h, ih]

theorem mapSet_of_get_none {α : Type} (m : List (String × α)) (k : String) (v : α)
    (h : mapGet m k = none) : mapSet m k v = m ++ [(k, v)] := by
  induction m with
  | nil => rfl
  | cons p rest ih =>
    obtain ⟨k₀, v₀⟩ := p
    by_cases h0 : k₀ = k
    · simp [mapGet, h0] at h
    · simp [mapGet, h0] at h
      simp [mapSet, h0, ih h]

theorem mapGet_append_of_none {α : Type} (a b : List (String × α)) (k : String)
    (h : mapGet a k = none) : mapGet (a ++ b) k = mapGet b k := by
  induction a with
  | nil => rfl
  | cons p rest ih =>
    obtain ⟨k₀, v₀⟩ := p
    by_cases h0 : k₀ = k
    · simp [mapGet, h0] at h
    · simp [mapGet, h0] at h
      simp [mapGet, h0, ih h]

theorem normStep_eq (key : String) (acc : EntityMap) (r : Rec) :
    normStep key acc r
      = match normKey key r with
        | none => acc
        | some s => mapSet acc s r := by
  unfold normStep normKey
  cases h : recGet r key with
  | none => rfl
  | some v => cases v <;> rfl

theorem normStep_none (key : String) (acc : EntityMap) (r : Rec)
    (hk : normKey key r = none) : normStep key acc r = acc := by
  rw [normStep_eq, hk]

theorem normStep_some (key : String) (acc : EntityMap) (r : Rec) (s : String)
    (hk : normKey key r = some s) : normStep key acc r = mapSet acc s r := by
  rw [normStep_eq, hk]

/-- Core shape of the fold inside `normalize`: as long as the keys produced by the
collection are pairwise distinct and absent from the accumulator, each kept
record is appended, so the fold is the accumulator followed by the key/record
pairs of the kept records in order. -/
theorem normalize_foldl_eq (key : String) (C : List Rec) (acc : EntityMap)
    (h2 : (C.filterMap (normKey key)).Nodup)
    (h3 : ∀ r ∈ C, ∀ s, normKey key r = some s → mapGet acc s = none) :
    C.foldl (normStep key) acc
      = acc ++ C.filterMap (fun r => (normKey key r).map (fun s => (s, r))) := by
  induction C generalizing acc with
  | nil => simp
  | cons r C ih =>
    rw [List.foldl_cons]
    cases hk : normKey key r with
    | none =>
      rw [normStep_none key acc r hk]
      rw [List.filterMap_cons_none (by rw [hk]; rfl)]
      rw [List.filterMap_cons_none hk] at h2
      exact ih acc h2 (fun r' hr' s hs => h3 r' (List.mem_cons_of_mem _ hr') s hs)
    | some s =>
      rw [normStep_some key acc r s hk]
      rw [List.filterMap_cons_some (by rw [hk]; rfl)]
      rw [mapSet_of_get_none acc s r (h3 r (List.mem_cons_self r C) s hk)]
      rw [List.filterMap_cons_some hk] at h2
      have hs_not : s ∉ C.filterMap (normKey key) := (List.nodup_cons.mp h2).1
      have h3' : ∀ r' ∈ C, ∀ s', normKey key r' = some s'
          → mapGet (acc ++ [(s, r)]) s' = none := by
        intro r' hr' s' hs'
        have hne : s ≠ s' := by
          intro he
          exact hs_not (he ▸ List.mem_filterMap.mpr ⟨r', hr', hs'⟩)
        rw [mapGet_append_of_none _ _ _ (h3 r' (List.mem_cons_of_mem _ hr') s' hs')]
        simp [mapGet, hne]
      rw [ih (acc ++ [(s, r)]) (List.nodup_cons.mp h2).2 h3']
      simp

/-- With every record kept (identifier present and non-null), the fold keeps
every record, so the values of the resulting map are the collection itself. -/
theorem map_snd_filterMap (key : String) (C : List Rec)
    (h1 : ∀ r ∈ C, (normKey key r).isSome) :
    List.map Prod.snd (C.filterMap (fun r => (normKey key r).map (fun s => (s, r)))) = C := by
  induction C with
  | nil => rfl
  | cons r C ih =>
    have hr := h1 r (List.mem_cons_self r C)
    cases hk : normKey key r with
    | none => rw [hk] at hr; simp at hr
    | some s =>
      rw [List.filterMap_cons_some (by rw [hk]; rfl)]
      simpa using ih (fun r' hr' => h1 r' (List.mem_cons_of_mem _ hr'))


/-- Auxiliary for C2: under the no-null and no-collision hypotheses, the kept
key/record pairs are in bijection with the records whose identifier field is
present. -/
theorem filterMap_length_eq (key : String) (C : List Rec)
    (h1 : ∀ r ∈ C, ∀ v, recGet r key = some v → v ≠ JVal.null) :
    (C.filterMap (fun r => (normKey key r).map (fun s => (s, r)))).length
      = (C.filter (fun r => (recGet r key).isSome)).length := by
  induction C with
  | nil => rfl
  | cons r C ih =>
    have hr := h1 r (List.mem_cons_self r C)
    have ih' := ih (fun r' h' v hv => h1 r' (List.mem_cons_of_mem _ h') v hv)
    cases hg : recGet r key with
    | none =>
      have hk : normKey key r = none := by unfold normKey; rw [hg]
      rw [List.filterMap_cons_none (by rw [hk]; rfl), List.filter_cons]
      simp [hg, ih']
    | some v =>
      have hvn : v ≠ JVal.null := hr v hg
      have hk : normKey key r = some (jvalToString v) := by
        unfold normKey
        rw [hg]
        cases v with
        | null => exact absurd rfl hvn
        | num n => rfl
        | str s => rfl
        | obj f => rfl
      rw [List.filterMap_cons_some (by rw [hk]; rfl), List.filter_cons]
      simp [hg, ih']

/-- Auxiliary for C3: a fold over records none of which is filed under key
`s` leaves the entry at `s` untouched. -/
theorem mapGet_foldl_no_key (key s : String) (ys : List Rec) (acc : EntityMap)
    (h : ∀ r' ∈ ys, normKey key r' ≠ some s) :
    mapGet (ys.foldl (normStep key) acc) s = mapGet acc s := by
  induction ys generalizing acc with
  | nil => rfl
  | cons y ys ih =>
    rw [List.foldl_cons]
    have hy := h y (List.mem_cons_self y ys)
    have htail : ∀ r' ∈ ys, normKey key r' ≠ some s :=
      fun r' h' => h r' (List.mem_cons_of_mem _ h')
    cases hk : normKey key y with
    | none =>
      rw [normStep_none key acc y hk]
      exact ih acc htail
    | some s' =>
      have hne : s ≠ s' := fun he => hy (by rw [hk, he])
      rw [normStep_some key acc y s' hk]
      rw [ih (mapSet acc s' y) htail]
      exact mapGet_mapSet_ne acc s' s y hne

/-- C1: for a collection whose records all carry a usable identifier (the
`id` field present and non-null, which is what the skip condition of the source
treats as "carrying the identifier") with pairwise distinct stringified
values, `denormalize(normalize(C))` contains exactly the records of C (set
equality; in this model the order even coincides, but only membership is
claimed). -/
theorem denormalize_normalize_roundtrip (C : List Rec)
    (h1 : ∀ r ∈ C, (normKey "id" r).isSome)
    (h2 : (C.filterMap (normKey "id")).Nodup) :
    ∀ r : Rec, r ∈ denormalize (normalize C "id") ↔ r ∈ C := by
  have h := normalize_foldl_eq "id" C [] h2 (fun r hr s hs => rfl)
  have hval : denormalize (normalize C "id") = C := by
    unfold normalize denormalize
    rw [h, List.nil_append, map_snd_filterMap "id" C h1]
  rw [hval]
  exact fun r => Iff.rfl

/-- C1 witness: the two-user example satisfies the hypotheses and the
round-trip membership at a concrete record. -/
theorem denormalize_normalize_roundtrip_witness :
    (∀ r ∈ [[("id", JVal.num 1), ("name", JVal.str "John")],
            [("id", JVal.num 2), ("name", JVal.str "Jane")]], (normKey "id" r).isSome)
    ∧ ([[("id", JVal.num 1), ("name", JVal.str "John")],
        [("id", JVal.num 2), ("name", JVal.str "Jane")]].filterMap (normKey "id")).Nodup
    ∧ ([("id", JVal.num 1), ("name", JVal.str "John")] ∈
         denormalize (normalize [[("id", JVal.num 1), ("name", JVal.str "John")],
                                 [("id", JVal.num 2), ("name", JVal.str "Jane")]] "id")
       ↔ [("id", JVal.num 1), ("name", JVal.str "John")] ∈
           [[("id", JVal.num 1), ("name", JVal.str "John")],
            [("id", JVal.num 2), ("name", JVal.str "Jane")]]) :=
  ⟨by decide, by decide,
    denormalize_normalize_roundtrip _ (by decide) (by decide) _⟩

/-- C2 counterexample: two records both carry the `id` field with the same
value `1`; the resulting map has one entry while two records had the field,
so the claimed size equality fails for this collection. -/
theorem normalize_size_claim_cex :
    (normalize [[("id", JVal.num 1)], [("id", JVal.num 1)]] "id").length
      ≠ (List.filter (fun r => (recGet r "id").isSome)
          [[("id", JVal.num 1)], [("id", JVal.num 1)]]).length := by
  decide

/-- C2 (amended): provided the identifier values that are present are
non-null and pairwise distinct after string coercion, `normalize` excludes
every record lacking the identifier field and the size of the map equals the
count of records that had the field. -/
theorem normalize_skips_and_size (C : List Rec)
    (h1 : ∀ r ∈ C, ∀ v, recGet r "id" = some v → v ≠ JVal.null)
    (h2 : (C.filterMap (normKey "id")).Nodup) :
    (∀ r ∈ C, recGet r "id" = none → r ∉ denormalize (normalize C "id"))
    ∧ (normalize C "id").length
        = (C.filter (fun r => (recGet r "id").isSome)).length := by
  have h := normalize_foldl_eq "id" C [] h2 (fun r hr s hs => rfl)
  constructor
  · intro r hr hnone hmem
    unfold normalize denormalize at hmem
    rw [h, List.nil_append, List.mem_map] at hmem
    obtain ⟨⟨s, r'⟩, hp, hsnd⟩ := hmem
    rw [List.mem_filterMap] at hp
    obtain ⟨a, ha, hfa⟩ := hp
    cases hk : normKey "id" a with
    | none => rw [hk] at hfa; exact nomatch hfa
    | some s' =>
      rw [hk] at hfa
      have har : a = r' := congrArg Prod.snd (Option.some_injective _ hfa)
      have hrr : r' = r := hsnd
      have : normKey "id" r = some s' := by rw [← hrr, ← har, hk]
      unfold normKey at this
      rw [hnone] at this
      exact nomatch this
  · unfold normalize
    rw [h, List.nil_append, filterMap_length_eq "id" C h1]

/-- C2 witness: a collection with one record missing `id` and one carrying
it; the missing record is excluded and the size is 1. -/
theorem normalize_skips_and_size_witness :
    (∀ r ∈ [[("name", JVal.str "NoId")], [("id", JVal.num 7)]],
       ∀ v, recGet r "id" = some v → v ≠ JVal.null)
    ∧ ([[("name", JVal.str "NoId")], [("id", JVal.num 7)]].filterMap (normKey "id")).Nodup
    ∧ ([("name", JVal.str "NoId")]
         ∉ denormalize (normalize [[("name", JVal.str "NoId")], [("id", JVal.num 7)]] "id"))
    ∧ (normalize [[("name", JVal.str "NoId")], [("id", JVal.num 7)]] "id").length
        = (List.filter (fun r => (recGet r "id").isSome)
            [[("name", JVal.str "NoId")], [("id", JVal.num 7)]]).length :=
  ⟨by decide, by decide,
    (normalize_skips_and_size _ (by decide) (by decide)).1 _ (by decide) (by decide),
    (normalize_skips_and_size _ (by decide) (by decide)).2⟩

/-- C3: when a record `r` with a usable identifier stringifying to `s` occurs
in the collection and no later record is filed under `s`, the resulting map
sends `s` to `r`: a later duplicate therefore overwrites every earlier
record with the same identifier, and no error is raised (`normalize` is a
total function). -/
theorem normalize_last_wins (key : String) (xs ys : List Rec) (r : Rec) (s : String)
    (hr : normKey key r = some s)
    (hys : ∀ r' ∈ ys, normKey key r' ≠ some s) :
    mapGet (normalize (xs ++ r :: ys) key) s = some r := by
  unfold normalize
  rw [show xs ++ r :: ys = (xs ++ [r]) ++ ys by simp, List.foldl_append, List.foldl_append]
  rw [mapGet_foldl_no_key key s ys _ hys]
  rw [List.foldl_cons, List.foldl_nil, normStep_some _ _ _ _ hr]
  exact mapGet_mapSet_self _ s r

/-- C3 witness: two records share identifier `1` with different `name`
fields; the map retains the later one. -/
theorem normalize_last_wins_witness :
    normKey "id" [("id", JVal.num 1), ("name", JVal.str "B")] = some "1"
    ∧ mapGet (normalize [[("id", JVal.num 1), ("name", JVal.str "A")],
                         [("id", JVal.num 1), ("name", JVal.str "B")]] "id") "1"
        = some [("id", JVal.num 1), ("name", JVal.str "B")] :=
  ⟨by decide,
    normalize_last_wins "id" [[("id", JVal.num 1), ("name", JVal.str "A")]] []
      [("id", JVal.num 1), ("name", JVal.str "B")] "1" (by decide) (by decide)⟩


/-- Shared helper: folding one more record is one `normStep` on the fold of
the prefix. -/
theorem normalize_append_one (key : String) (xs : List Rec) (r : Rec) :
    normalize (xs ++ [r]) key = normStep key (normalize xs key) r := by
  unfold normalize
  rw [List.foldl_append, List.foldl_cons, List.foldl_nil]

/-- C4: when the nested field of a record is absent or its value is not a (truthy)
object, the `extractEntities` iteration for it copies the record through
unchanged — the items map receives exactly the original record, with no
`<nestedFieldName>Id` field added — and the entities map is left untouched. -/
theorem extractStep_passthrough (entityKey idKey : String) (st : EntityMap × EntityMap)
    (item : Rec)
    (h : ∀ e, recGet item entityKey ≠ some (JVal.obj e)) :
    extractStep entityKey idKey st item
        = (mapSet st.1 (stringifyOpt (recGet item idKey)) item, st.2)
    ∧ mapGet (extractStep entityKey idKey st item).1 (stringifyOpt (recGet item idKey))
        = some item := by
  have hcopy : itemCopyOf entityKey idKey item = item := by
    unfold itemCopyOf
    cases hg : recGet item entityKey with
    | none => rfl
    | some v =>
      cases v with
      | obj e => exact absurd hg (h e)
      | null => rfl
      | num n => rfl
      | str s => rfl
  have hents : entitiesUpdate entityKey idKey st.2 item = st.2 := by
    unfold entitiesUpdate
    cases hg : recGet item entityKey with
    | none => rfl
    | some v =>
      cases v with
      | obj e => exact absurd hg (h e)
      | null => rfl
      | num n => rfl
      | str s => rfl
  constructor
  · unfold extractStep
    rw [hcopy, hents]
  · unfold extractStep
    rw [hcopy]
    exact mapGet_mapSet_self _ _ _

/-- C4 witness: a post with no `author` field is passed through unchanged and
adds nothing to the entities map. -/
theorem extractStep_passthrough_witness :
    (∀ e, recGet [("id", JVal.num 1), ("title", JVal.str "P")] "author"
        ≠ some (JVal.obj e))
    ∧ (extractStep "author" "id" ([], []) [("id", JVal.num 1), ("title", JVal.str "P")]
        = (mapSet [] (stringifyOpt (recGet [("id", JVal.num 1), ("title", JVal.str "P")] "id"))
            [("id", JVal.num 1), ("title", JVal.str "P")], [])
      ∧ mapGet (extractStep "author" "id" ([], [])
            [("id", JVal.num 1), ("title", JVal.str "P")]).1
          (stringifyOpt (recGet [("id", JVal.num 1), ("title", JVal.str "P")] "id"))
          = some [("id", JVal.num 1), ("title", JVal.str "P")]) :=
  ⟨by intro e hh; simp [recGet, mapGet] at hh,
    extractStep_passthrough "author" "id" ([], [])
      [("id", JVal.num 1), ("title", JVal.str "P")]
      (by intro e hh; simp [recGet, mapGet] at hh)⟩

/-- C5: the two-post example from the spec: the nested `author` objects are replaced
by an `authorId` field and the two occurrences of author 10 collapse to a
single entities entry. -/
theorem extractEntities_example :
    extractEntities
      [[("id", JVal.num 1), ("title", JVal.str "P1"),
        ("author", JVal.obj [("id", JVal.num 10), ("name", JVal.str "John")])],
       [("id", JVal.num 2), ("title", JVal.str "P2"),
        ("author", JVal.obj [("id", JVal.num 10), ("name", JVal.str "John")])]]
      "author" "id"
      = ([("1", [("id", JVal.num 1), ("title", JVal.str "P1"), ("authorId", JVal.num 10)]),
          ("2", [("id", JVal.num 2), ("title", JVal.str "P2"), ("authorId", JVal.num 10)])],
         [("10", [("id", JVal.num 10), ("name", JVal.str "John")])]) := by
  decide

/-- C6: `updateEntity` against an identifier that is absent from the map
returns the map itself (structural equality) and raises no error. -/
theorem updateEntity_absent_noop (m : EntityMap) (id : JVal) (updates : Rec)
    (h : mapGet m (jvalToString id) = none) :
    updateEntity m id updates = m := by
  unfold updateEntity
  rw [h]

/-- C6 witness: updating entity 1 in a map that only holds entity 2 is a
no-op. -/
theorem updateEntity_absent_noop_witness :
    mapGet [("2", [("id", JVal.num 2)])] (jvalToString (JVal.num 1)) = none
    ∧ updateEntity [("2", [("id", JVal.num 2)])] (JVal.num 1) [("name", JVal.str "X")]
        = [("2", [("id", JVal.num 2)])] :=
  ⟨by decide, updateEntity_absent_noop _ _ _ (by decide)⟩

/-- C7: starting from the empty map, `addEntity({id:1,...})` followed by
`removeEntity(1)` leaves `hasEntity(1)` false and `count` equal to 0. -/
theorem add_remove_entity_example :
    hasEntity (removeEntity (addEntity [] [("id", JVal.num 1), ("name", JVal.str "John")])
        (JVal.num 1)) (JVal.num 1) = false
    ∧ count (removeEntity (addEntity [] [("id", JVal.num 1), ("name", JVal.str "John")])
        (JVal.num 1)) = 0 := by
  decide

/-- C9: `extractEntities` does not apply the skip-and-warn policy of `normalize`:
an outer record whose `idKey` field is absent is still written into the items
map, under the stringified key "undefined". -/
theorem extractStep_missing_id_retained (entityKey idKey : String)
    (st : EntityMap × EntityMap) (item : Rec)
    (h : recGet item idKey = none) :
    mapGet (extractStep entityKey idKey st item).1 "undefined"
      = some (itemCopyOf entityKey idKey item) := by
  unfold extractStep
  rw [h]
  exact mapGet_mapSet_self _ _ _

/-- C9 witness: a record with no `id` field lands in the items map under the
key "undefined". -/
theorem extractStep_missing_id_retained_witness :
    recGet [("title", JVal.str "T")] "id" = none
    ∧ mapGet (extractStep "author" "id" ([], []) [("title", JVal.str "T")]).1 "undefined"
        = some (itemCopyOf "author" "id" [("title", JVal.str "T")]) :=
  ⟨by decide, extractStep_missing_id_retained "author" "id" ([], [])
      [("title", JVal.str "T")] (by decide)⟩

/-- C10: a record whose identifier field holds `null` is treated exactly like
a record missing the field: both are skipped and trigger the diagnostic,
while any non-null identifier value (such as 0 or the empty string) is
inserted and not warned about. -/
theorem normalize_null_like_missing (key : String) (xs : List Rec) (rn rm r0 : Rec) (v : JVal)
    (hn : recGet rn key = some JVal.null) (hm : recGet rm key = none)
    (h0 : recGet r0 key = some v) (hv : v ≠ JVal.null) :
    normalize (xs ++ [rn]) key = normalize xs key
    ∧ rn ∈ normalizeWarned (xs ++ [rn]) key
    ∧ normalize (xs ++ [rm]) key = normalize xs key
    ∧ rm ∈ normalizeWarned (xs ++ [rm]) key
    ∧ normalize (xs ++ [r0]) key = mapSet (normalize xs key) (jvalToString v) r0
    ∧ r0 ∉ normalizeWarned (xs ++ [r0]) key := by
  have hkn : normKey key rn = none := by unfold normKey; rw [hn]
  have hkm : normKey key rm = none := by unfold normKey; rw [hm]
  have hk0 : normKey key r0 = some (jvalToString v) := by
    unfold normKey
    rw [h0]
    cases v with
    | null => exact absurd rfl hv
    | num n => rfl
    | str s => rfl
    | obj f => rfl
  refine ⟨?_, ?_, ?_, ?_, ?_, ?_⟩
  · rw [normalize_append_one, normStep_none _ _ _ hkn]
  · refine List.mem_filter.mpr ⟨List.mem_append.mpr (Or.inr (List.mem_singleton.mpr rfl)), ?_⟩
    show (match recGet rn key with
          | none => true
          | some JVal.null => true
          | some _ => false) = true
    rw [hn]
  · rw [normalize_append_one, normStep_none _ _ _ hkm]
  · refine List.mem_filter.mpr ⟨List.mem_append.mpr (Or.inr (List.mem_singleton.mpr rfl)), ?_⟩
    show (match recGet rm key with
          | none => true
          | some JVal.null => true
          | some _ => false) = true
    rw [hm]
  · rw [normalize_append_one, normStep_some _ _ _ _ hk0]
  · intro hmem
    have hpred : (match recGet r0 key with
          | none => true
          | some JVal.null => true
          | some _ => false) = true := (List.mem_filter.mp hmem).2
    rw [h0] at hpred
    cases v with
    | null => exact hv rfl
    | num n => exact nomatch hpred
    | str s => exact nomatch hpred
    | obj f => exact nomatch hpred

/-- C10 witness: `{id: null}` and a record with no `id` are both dropped and
warned; `{id: 0}` is kept under key "0" and not warned. -/
theorem normalize_null_like_missing_witness :
    recGet [("id", JVal.null)] "id" = some JVal.null
    ∧ recGet [("x", JVal.num 5)] "id" = none
    ∧ recGet [("id", JVal.num 0)] "id" = some (JVal.num 0)
    ∧ JVal.num 0 ≠ JVal.null
    ∧ (normalize ([] ++ [[("id", JVal.null)]]) "id" = normalize [] "id"
      ∧ [("id", JVal.null)] ∈ normalizeWarned ([] ++ [[("id", JVal.null)]]) "id"
      ∧ normalize ([] ++ [[("x", JVal.num 5)]]) "id" = normalize [] "id"
      ∧ [("x", JVal.num 5)] ∈ normalizeWarned ([] ++ [[("x", JVal.num 5)]]) "id"
      ∧ normalize ([] ++ [[("id", JVal.num 0)]]) "id"
          = mapSet (normalize [] "id") (jvalToString (JVal.num 0)) [("id", JVal.num 0)]
      ∧ [("id", JVal.num 0)] ∉ normalizeWarned ([] ++ [[("id", JVal.num 0)]]) "id") :=
  ⟨by decide, by decide, by decide, by decide,
    normalize_null_like_missing "id" [] [("id", JVal.null)] [("x", JVal.num 5)]
      [("id", JVal.num 0)] (JVal.num 0) (by decide) (by decide) (by decide) (by decide)⟩


end RNF
